import Mathlib

/-!
Verification of the MedGuard detection-and-scoring pipeline
(`src/services/scanService.ts`).

The TypeScript source is shallowly embedded here:

* JS strings are modelled as `List Char` (all inputs of interest are ASCII,
  where one UTF-16 unit is one `Char`).
* JS regular expressions are modelled by a small `Regex` type together with a
  backtracking matcher `runs` that mirrors the JS semantics used by the
  patterns of the source: leftmost match, priority-ordered alternation,
  greedy quantifiers, word boundaries, and `String.prototype.match` with the
  `g` flag scanning for successive non-overlapping matches.
* JS numbers are idealised as exact rationals (`ℚ`); `Math.round` is
  `jsRound`, rounding halves toward positive infinity.
* Fallible effectful operations (persistence, alerting) are modelled with
  `Except`, parameterised by whether the alerting collaborator succeeds.
-/

namespace MedGuard

/-- Severity / risk-level values. The source uses the two string unions
`PhiSeverity` and `RiskLevel`, both equal to
`'LOW' | 'MEDIUM' | 'HIGH' | 'CRITICAL'`, so a single enumeration models
both. -/
inductive Severity where
  | LOW
  | MEDIUM
  | HIGH
  | CRITICAL
deriving DecidableEq

/-- The `PhiType` string union from `types/db`. -/
inductive PhiType where
  | SSN
  | MRN
  | DOB
  | PHONE
  | EMAIL
  | ADDRESS
  | NAME
  | DIAGNOSIS
  | MEDICATION
  | INSURANCE_ID
  | CREDIT_CARD
  | DRIVER_LICENSE
  | PASSPORT
  | IP_ADDRESS
  | BIOMETRIC
  | OTHER
deriving DecidableEq

-- ===========================================================================
-- JS regular expressions (the fragment used by PHI_PATTERNS)
-- ===========================================================================

/-- Regular expressions over characters: empty string, a character class
given by a list of inclusive ranges, concatenation, prioritised alternation,
greedy Kleene star, and the zero-width word-boundary assertion. -/
inductive Regex where
  | eps
  | cls (ranges : List (Char × Char))
  | cat (r1 r2 : Regex)
  | alt (r1 r2 : Regex)
  | star (r : Regex)
  | wb
deriving DecidableEq

/-- Character-class membership: inside one of the inclusive ranges. -/
def inClass (ranges : List (Char × Char)) (c : Char) : Bool :=
  ranges.any (fun p => p.1 ≤ c && c ≤ p.2)

/-- The ranges of the JS `\w` class: `[A-Za-z0-9_]`. -/
def wordRanges : List (Char × Char) :=
  [('A', 'Z'), ('a', 'z'), ('0', '9'), ('_', '_')]

/-- JS word character, as used by the `\b` assertion. -/
def wordCharB (c : Char) : Bool := inClass wordRanges c

/-- `\b` holds when exactly one of the adjacent positions holds a word
character (a missing neighbour counts as a non-word character). -/
def boundaryB (prev next : Option Char) : Bool :=
  (match prev with | none => false | some c => wordCharB c)
    != (match next with | none => false | some c => wordCharB c)

/-- Last character of `t`, falling back to `prev` when `t` is empty; the
left-context tracked for `\b`. -/
def lastOr (t : List Char) (prev : Option Char) : Option Char :=
  match t.getLast? with
  | some c => some c
  | none => prev

/-- All ways the regex can match a prefix of `s`, as `(consumed, rest)`
pairs, listed in JS backtracking priority order (first alternative first,
greedy quantifiers longest-first). `prev` is the character immediately
before `s` in the whole subject, used by `\b`. `fuel` bounds the recursion
depth (structural recursion, so the kernel can evaluate it); a star
iteration always consumes at least one character, so `bigFuel` below is
always sufficient for the registry's patterns. -/
def runs : Nat → Regex → Option Char → List Char → List (List Char × List Char)
  | 0, _, _, _ => []
  | _ + 1, .eps, _, s => [([], s)]
  | _ + 1, .cls _, _, [] => []
  | _ + 1, .cls rs, _, c :: cs => if inClass rs c then [([c], cs)] else []
  | _ + 1, .wb, prev, s => if boundaryB prev s.head? then [([], s)] else []
  | fuel + 1, .alt r1 r2, prev, s => runs fuel r1 prev s ++ runs fuel r2 prev s
  | fuel + 1, .cat r1 r2, prev, s =>
      (runs fuel r1 prev s).flatMap (fun pr =>
        (runs fuel r2 (lastOr pr.1 prev) pr.2).map (fun qr => (pr.1 ++ qr.1, qr.2)))
  | fuel + 1, .star r, prev, s =>
      (((runs fuel r prev s).filter (fun pr => !pr.1.isEmpty)).flatMap (fun pr =>
        (runs fuel (.star r) (lastOr pr.1 prev) pr.2).map
          (fun qr => (pr.1 ++ qr.1, qr.2))))
      ++ [([], s)]

/-- Syntactic size of a regex, used to choose an adequate fuel. -/
def Regex.size : Regex → Nat
  | .eps => 1
  | .cls _ => 1
  | .wb => 1
  | .cat r1 r2 => r1.size + r2.size + 1
  | .alt r1 r2 => r1.size + r2.size + 1
  | .star r => r.size + 1

/-- A recursion-depth budget that is ample for the registry's patterns
(whose starred subexpressions all consume at least one character per
iteration). -/
def bigFuel (r : Regex) (s : List Char) : Nat :=
  (s.length + 2) * (r.size + 2)

/-- The JS match attempt at the current position: the highest-priority way
for the regex to match here, if any. -/
def firstRunAt (r : Regex) (prev : Option Char) (s : List Char) :
    Option (List Char × List Char) :=
  (runs (bigFuel r s) r prev s).head?

/-- Scanning loop of `String.prototype.match` with the `g` flag: find the
leftmost match at or after the current position, record `(offset, matched)`,
continue after it (advancing one position on an empty match, as JS does with
`lastIndex`). `fuel` bounds the loop; `s.length + 1` is always enough. -/
def jsMatchAux : Nat → Regex → Option Char → List Char → Nat → List (Nat × List Char)
  | 0, _, _, _, _ => []
  | fuel + 1, r, prev, s, off =>
      match firstRunAt r prev s with
      | some (t, rest) =>
          if t.isEmpty then
            (off, t) ::
              (match s with
               | [] => []
               | c :: cs => jsMatchAux fuel r (some c) cs (off + 1))
          else
            (off, t) :: jsMatchAux fuel r (lastOr t prev) rest (off + t.length)
      | none =>
          match s with
          | [] => []
          | c :: cs => jsMatchAux fuel r (some c) cs (off + 1)

/-- All matches with their offsets, in order. -/
def jsMatchOff (r : Regex) (s : List Char) : List (Nat × List Char) :=
  jsMatchAux (s.length + 1) r none s 0

/-- `text.match(re)` for a `g`-flagged regex: the list of matched strings
(empty list standing for JS `null`). -/
def jsMatch (r : Regex) (s : List Char) : List (List Char) :=
  (jsMatchOff r s).map (fun p => p.2)

-- ===========================================================================
-- Builders used to transliterate the regex literals of the source
-- ===========================================================================

/-- Single literal character. -/
def rchar (c : Char) : Regex := .cls [(c, c)]

/-- Concatenation of a sequence of regexes. -/
def rcats (l : List Regex) : Regex := l.foldr .cat .eps

/-- Literal string (case-sensitive). -/
def rstrOf (s : List Char) : Regex := rcats (s.map rchar)

/-- One character of a case-insensitive literal: under the JS `i` flag a
letter matches both its cases. -/
def ciChar (c : Char) : Regex :=
  if c.isAlpha then .cls [(c.toLower, c.toLower), (c.toUpper, c.toUpper)]
  else rchar c

/-- Literal string under the `i` flag. -/
def rstrCI (s : List Char) : Regex := rcats (s.map ciChar)

/-- Greedy `r?`. -/
def ropt (r : Regex) : Regex := .alt r .eps

/-- Greedy `r+`. -/
def rplus (r : Regex) : Regex := .cat r (.star r)

/-- `r{n}`. -/
def rrepeatN (r : Regex) : Nat → Regex
  | 0 => .eps
  | n + 1 => .cat r (rrepeatN r n)

/-- Up to `n` further greedy repetitions (the tail of `r{lo,hi}`). -/
def roptUpTo (r : Regex) : Nat → Regex
  | 0 => .eps
  | n + 1 => .alt (.cat r (roptUpTo r n)) .eps

/-- Greedy `r{lo,hi}`. -/
def rrange (r : Regex) (lo hi : Nat) : Regex :=
  .cat (rrepeatN r lo) (roptUpTo r (hi - lo))

/-- Greedy `r{lo,}`. -/
def ratLeast (r : Regex) (lo : Nat) : Regex :=
  .cat (rrepeatN r lo) (.star r)

/-- Prioritised alternation of a list (JS `a|b|c`); the empty list matches
nothing. -/
def ralts : List Regex → Regex
  | [] => .cls []
  | [r] => r
  | r :: rest => .alt r (ralts rest)

/-- The ranges of the JS `\s` class. -/
def spaceRanges : List (Char × Char) :=
  [('\t', '\t'), ('\n', '\n'), ('\x0b', '\x0b'), ('\x0c', '\x0c'),
   ('\r', '\r'), (' ', ' '), ('\u00A0', '\u00A0'), ('\u1680', '\u1680'),
   ('\u2000', '\u200A'), ('\u2028', '\u2028'), ('\u2029', '\u2029'),
   ('\u202F', '\u202F'), ('\u205F', '\u205F'), ('\u3000', '\u3000'),
   ('\uFEFF', '\uFEFF')]

/-- `\d`. -/
def digitCls : Regex := .cls [('0', '9')]

/-- `\s`. -/
def spaceCls : Regex := .cls spaceRanges

/-- `\w`. -/
def wordCls : Regex := .cls wordRanges

/-- `[-\s]`. -/
def dashSpaceCls : Regex := .cls (('-', '-') :: spaceRanges)

/-- `[\s.-]`. -/
def spDotDashCls : Regex := .cls (spaceRanges ++ [('.', '.'), ('-', '-')])

/-- `[\s:]`. -/
def spColonCls : Regex := .cls (spaceRanges ++ [(':', ':')])

/-- `[\s:#]`. -/
def spColonHashCls : Regex := .cls (spaceRanges ++ [(':', ':'), ('#', '#')])

/-- `[\s#:]`. -/
def spHashColonCls : Regex := .cls (spaceRanges ++ [('#', '#'), (':', ':')])

/-- `[A-Za-z]`; also what `[A-Z]` or `[a-z]` match under the `i` flag. -/
def alphaCls : Regex := .cls [('A', 'Z'), ('a', 'z')]

-- ===========================================================================
-- The PHI pattern registry (PHI_PATTERNS of scanService.ts)
-- ===========================================================================

/-- One detector pattern of the registry. -/
structure PhiPattern where
  type : PhiType
  pattern : Regex
  severity : Severity
  description : String
deriving DecidableEq

/-- `/\b\d\x7b3\x7d[-\s]?\d\x7b2\x7d[-\s]?\d\x7b4\x7d\b/g` -/
def ssnRegex : Regex :=
  rcats [.wb, rrepeatN digitCls 3, ropt dashSpaceCls, rrepeatN digitCls 2,
         ropt dashSpaceCls, rrepeatN digitCls 4, .wb]

/-- `/\b(MRN|Medical Record)[\s:#]*\d\x7b6,10\x7d\b/gi` -/
def mrnRegex : Regex :=
  rcats [.wb, ralts [rstrCI ("MRN".toList), rstrCI ("Medical Record".toList)],
         .star spColonHashCls, rrange digitCls 6 10, .wb]

/-- `/\b(DOB|Date of Birth|Born)[\s:]*\d\x7b1,2\x7d[\/\-]\d\x7b1,2\x7d[\/\-]\d\x7b2,4\x7d\b/gi` -/
def dobRegex : Regex :=
  rcats [.wb,
         ralts [rstrCI ("DOB".toList), rstrCI ("Date of Birth".toList),
                rstrCI ("Born".toList)],
         .star spColonCls, rrange digitCls 1 2, .cls [('/', '/'), ('-', '-')],
         rrange digitCls 1 2, .cls [('/', '/'), ('-', '-')],
         rrange digitCls 2 4, .wb]

/-- `/\b(\+1[\s-]?)?(\(?\d\x7b3\x7d\)?[\s.-]?)?\d\x7b3\x7d[\s.-]?\d\x7b4\x7d\b/g` -/
def phoneRegex : Regex :=
  rcats [.wb,
         ropt (rcats [rchar '+', rchar '1', ropt (.cls (spaceRanges ++ [('-', '-')]))]),
         ropt (rcats [ropt (rchar '('), rrepeatN digitCls 3, ropt (rchar ')'),
                      ropt spDotDashCls]),
         rrepeatN digitCls 3, ropt spDotDashCls, rrepeatN digitCls 4, .wb]

/-- `/\b[A-Za-z0-9._%+-]+@[A-Za-z0-9.-]+\.[A-Z|a-z]\x7b2,\x7d\b/g`
(the `|` inside the final class is a literal, kept faithfully). -/
def emailRegex : Regex :=
  rcats [.wb,
         rplus (.cls [('A', 'Z'), ('a', 'z'), ('0', '9'), ('.', '.'),
                      ('_', '_'), ('%', '%'), ('+', '+'), ('-', '-')]),
         rchar '@',
         rplus (.cls [('A', 'Z'), ('a', 'z'), ('0', '9'), ('.', '.'), ('-', '-')]),
         rchar '.',
         ratLeast (.cls [('A', 'Z'), ('|', '|'), ('a', 'z')]) 2, .wb]

/-- `/\b(diagnosis|diagnosed with|ICD-?10?)[\s:]+[A-Z]\d\x7b2\x7d(\.\d\x7b1,2\x7d)?\b/gi` -/
def diagnosisRegex : Regex :=
  rcats [.wb,
         ralts [rstrCI ("diagnosis".toList), rstrCI ("diagnosed with".toList),
                rcats [rstrCI ("ICD".toList), ropt (rchar '-'), rchar '1',
                       ropt (rchar '0')]],
         rplus spColonCls, alphaCls, rrepeatN digitCls 2,
         ropt (rcats [rchar '.', rrange digitCls 1 2]), .wb]

/-- `/\b(prescribed|medication|taking|rx)[\s:]+\w+\s+\d+\s*(mg|ml|mcg)\b/gi` -/
def medicationRegex : Regex :=
  rcats [.wb,
         ralts [rstrCI ("prescribed".toList), rstrCI ("medication".toList),
                rstrCI ("taking".toList), rstrCI ("rx".toList)],
         rplus spColonCls, rplus wordCls, rplus spaceCls, rplus digitCls,
         .star spaceCls,
         ralts [rstrCI ("mg".toList), rstrCI ("ml".toList), rstrCI ("mcg".toList)],
         .wb]

/-- `/\b(member|insurance|policy)[\s#:]*[A-Z]\x7b2,3\x7d\d\x7b8,12\x7d\b/gi` -/
def insuranceRegex : Regex :=
  rcats [.wb,
         ralts [rstrCI ("member".toList), rstrCI ("insurance".toList),
                rstrCI ("policy".toList)],
         .star spHashColonCls, rrange alphaCls 2 3, rrange digitCls 8 12, .wb]

/-- `/\b(?:4[0-9]\x7b12\x7d(?:[0-9]\x7b3\x7d)?|5[1-5][0-9]\x7b14\x7d|3[47][0-9]\x7b13\x7d)\b/g` -/
def creditCardRegex : Regex :=
  rcats [.wb,
         ralts [rcats [rchar '4', rrepeatN digitCls 12, ropt (rrepeatN digitCls 3)],
                rcats [rchar '5', .cls [('1', '5')], rrepeatN digitCls 14],
                rcats [rchar '3', .cls [('4', '4'), ('7', '7')],
                       rrepeatN digitCls 13]],
         .wb]

/-- `/\b\d\x7b1,5\x7d\s+\w+\s+(Street|St|Avenue|Ave|Road|Rd|Boulevard|Blvd|Drive|Dr|Lane|Ln|Court|Ct)\b/gi` -/
def addressRegex : Regex :=
  rcats [.wb, rrange digitCls 1 5, rplus spaceCls, rplus wordCls, rplus spaceCls,
         ralts [rstrCI ("Street".toList), rstrCI ("St".toList),
                rstrCI ("Avenue".toList), rstrCI ("Ave".toList),
                rstrCI ("Road".toList), rstrCI ("Rd".toList),
                rstrCI ("Boulevard".toList), rstrCI ("Blvd".toList),
                rstrCI ("Drive".toList), rstrCI ("Dr".toList),
                rstrCI ("Lane".toList), rstrCI ("Ln".toList),
                rstrCI ("Court".toList), rstrCI ("Ct".toList)],
         .wb]

/-- `/\b(patient|name|mr\.|mrs\.|ms\.|dr\.)[\s:]+[A-Z][a-z]+\s+[A-Z][a-z]+\b/gi`
(under the `i` flag `[A-Z]` and `[a-z]` both match any Latin letter). -/
def nameRegex : Regex :=
  rcats [.wb,
         ralts [rstrCI ("patient".toList), rstrCI ("name".toList),
                rcats [rstrCI ("mr".toList), rchar '.'],
                rcats [rstrCI ("mrs".toList), rchar '.'],
                rcats [rstrCI ("ms".toList), rchar '.'],
                rcats [rstrCI ("dr".toList), rchar '.']],
         rplus spColonCls, alphaCls, rplus alphaCls, rplus spaceCls,
         alphaCls, rplus alphaCls, .wb]

/-- The PHI_PATTERNS registry, in source order. -/
def PHI_PATTERNS : List PhiPattern :=
  [⟨.SSN, ssnRegex, .CRITICAL, "Social Security Number"⟩,
   ⟨.MRN, mrnRegex, .HIGH, "Medical Record Number"⟩,
   ⟨.DOB, dobRegex, .HIGH, "Date of Birth"⟩,
   ⟨.PHONE, phoneRegex, .MEDIUM, "Phone Number"⟩,
   ⟨.EMAIL, emailRegex, .MEDIUM, "Email Address"⟩,
   ⟨.DIAGNOSIS, diagnosisRegex, .CRITICAL, "Medical Diagnosis Code"⟩,
   ⟨.MEDICATION, medicationRegex, .HIGH, "Medication Information"⟩,
   ⟨.INSURANCE_ID, insuranceRegex, .HIGH, "Insurance ID"⟩,
   ⟨.CREDIT_CARD, creditCardRegex, .CRITICAL, "Credit Card Number"⟩,
   ⟨.ADDRESS, addressRegex, .MEDIUM, "Street Address"⟩,
   ⟨.NAME, nameRegex, .HIGH, "Person Name"⟩]

-- ===========================================================================
-- Scoring helpers (scanService.ts lines 233-270)
-- ===========================================================================

/-- `Math.round`: round half toward positive infinity. -/
def jsRound (q : ℚ) : ℤ := ⌊q + 1 / 2⌋

/-- `getSeverityScore` (the `default` branch of the `switch` is unreachable
for the closed union). -/
def getSeverityScore : Severity → Nat
  | .CRITICAL => 100
  | .HIGH => 75
  | .MEDIUM => 50
  | .LOW => 25

/-- `getRiskLevelFromScore`. -/
def getRiskLevelFromScore (score : ℤ) : Severity :=
  if score ≥ 80 then .CRITICAL
  else if score ≥ 60 then .HIGH
  else if score ≥ 30 then .MEDIUM
  else .LOW

/-- One element of `PhiScanResult.findings`. -/
structure Finding where
  phiType : PhiType
  severity : Severity
  occurrences : Nat
  sampleSnippet : List Char
  lineNumber : Option Nat
  confidenceScore : ℚ
deriving DecidableEq

/-- `calculateRiskScore(phiCount, findings)`: severity/count-weighted mean
(as a rational) plus a capped count bonus, rounded and clamped to 100. -/
def calculateRiskScore (phiCount : Nat) (findings : List Finding) : ℤ :=
  if phiCount = 0 then 0
  else
    let weightedSum : ℚ :=
      (findings.map (fun f =>
        ((getSeverityScore f.severity : ℚ) / 100) *
          (1 + min ((f.occurrences : ℚ) / 10) 1))).sum
    let totalWeight : ℚ := (findings.length : ℚ)
    let baseScore : ℚ := if totalWeight > 0 then weightedSum / totalWeight * 100 else 0
    let countBonus : ℚ := min ((phiCount : ℚ) * 2) 20
    min (jsRound (baseScore + countBonus)) 100

-- ===========================================================================
-- The content scanner (scanService.ts lines 112-231)
-- ===========================================================================

/-- `maskSensitiveData`: `"****"` for short values, otherwise first two
characters, a run of `*`, and the last two characters. -/
def maskSensitiveData (value : List Char) (_phiType : PhiType) : List Char :=
  if value.length ≤ 4 then ("****".toList)
  else value.take 2 ++ List.replicate (value.length - 4) '*'
         ++ value.drop (value.length - 2)

/-- `String.prototype.indexOf`: index of the first occurrence of `pat` in
`s`, if any. -/
def listIndexOf (s pat : List Char) : Option Nat :=
  match s with
  | [] => if pat = [] then some 0 else none
  | _ :: cs =>
      if pat = s.take pat.length then some 0
      else (listIndexOf cs pat).map (· + 1)

/-- `String.prototype.split(sep)` for a one-character separator. -/
def splitOnChar (sep : Char) : List Char → List (List Char)
  | [] => [[]]
  | c :: cs =>
      if c = sep then [] :: splitOnChar sep cs
      else
        match splitOnChar sep cs with
        | [] => [[c]]
        | h :: t => (c :: h) :: t

/-- The body of the per-pattern loop of `scanContentForPhi`: the `Finding`
emitted for one pattern, or `none` when the pattern has no match. -/
def findingFor (text : List Char) (p : PhiPattern) : Option Finding :=
  let ms := jsMatch p.pattern text
  if ms.isEmpty then none
  else
    let firstMatch := ms.headD []
    some
      { phiType := p.type
        severity := p.severity
        occurrences := ms.length
        sampleSnippet := maskSensitiveData firstMatch p.type
        lineNumber :=
          (listIndexOf text firstMatch).map (fun i => (splitOnChar '\n' (text.take i)).length)
        confidenceScore := 17 / 20 }

/-- Result type of `scanContentForPhi`. -/
structure PhiScanResult where
  riskScore : ℤ
  riskLevel : Severity
  phiCount : Nat
  findings : List Finding
deriving DecidableEq

/-- `scanContentForPhi` applied to an already-resolved text (the loop over
`PHI_PATTERNS` plus scoring). `maxSeverityScore` is accumulated by the
source but never used in its result, so it is omitted. -/
def scanText (text : List Char) : PhiScanResult :=
  let findings := PHI_PATTERNS.filterMap (findingFor text)
  let phiCount := (findings.map (fun f => f.occurrences)).sum
  let riskScore := calculateRiskScore phiCount findings
  { riskScore := riskScore
    riskLevel := getRiskLevelFromScore riskScore
    phiCount := phiCount
    findings := findings }

/-- `String.prototype.includes`. -/
def includesSub (s sub : List Char) : Bool :=
  (listIndexOf s sub).isSome

/-- `generateMockContent`: deterministic synthetic text chosen from the
lowercased file name. -/
def generateMockContent (fileName : List Char) : List Char :=
  let lowerName := fileName.map Char.toLower
  if includesSub lowerName ("patient".toList) ∨
      includesSub lowerName ("medical".toList) then
    ("\n      Patient: John Smith\n      DOB: 03/15/1985\n      MRN: 123456789\n      SSN: 123-45-6789\n      Diagnosis: ICD-10 J06.9\n      Medication: prescribed Amoxicillin 500 mg\n      Address: 123 Main Street\n      Phone: (555) 123-4567\n      Email: john.smith@email.com\n    ".toList)
  else if includesSub lowerName ("billing".toList) ∨
      includesSub lowerName ("invoice".toList) then
    ("\n      Insurance ID: ABC12345678\n      Member ID: XYZ987654321\n      Credit Card: 4111111111111111\n      Address: 456 Oak Avenue\n      Phone: 555-987-6543\n    ".toList)
  else
    ("Document: ".toList) ++ fileName ++ ("\nCreated for scanning demo.".toList)

/-- JS `a || b` on an optional string: the empty string is falsy, so both a
missing and an empty `a` select `b`. -/
def jsOrStr (a : Option (List Char)) (b : List Char) : List Char :=
  match a with
  | some s => if s.isEmpty then b else s
  | none => b

/-- `scanContentForPhi(content, fileName)`. -/
def scanContentForPhi (content : Option (List Char)) (fileName : List Char) :
    PhiScanResult :=
  scanText (jsOrStr content (generateMockContent fileName))

-- ===========================================================================
-- Folder aggregation (scanService.ts lines 762-821)
-- ===========================================================================


/-- `Array.prototype.join('/')`. -/
def joinSlash : List (List Char) → List Char
  | [] => []
  | [x] => x
  | x :: xs => x ++ '/' :: joinSlash xs

/-- `getParentFolder(filePath, rootPath)`: drop the last `/`-separated
component; every falsy (empty) intermediate result falls back to
`rootPath`, then to `"/"`. -/
def getParentFolder (filePath rootPath : List Char) : List Char :=
  let parts := splitOnChar '/' filePath
  if parts.length ≤ 1 then (if rootPath.isEmpty then ("/".toList) else rootPath)
  else
    let joined := joinSlash parts.dropLast
    if joined.isEmpty then (if rootPath.isEmpty then ("/".toList) else rootPath)
    else joined

/-- The fields of a `scanned_files` row that the aggregation and filtering
code reads (`risk_score` and `risk_level` are nullable in the row type). -/
structure ScannedFileRec where
  fileName : List Char
  filePath : Option (List Char)
  riskScore : Option ℤ
  riskLevel : Option Severity
  phiCount : Nat
deriving DecidableEq

/-- The folder key of a file: parent of `file.file_path || file.file_name`. -/
def folderKeyOf (f : ScannedFileRec) (rootPath : List Char) : List Char :=
  getParentFolder (jsOrStr f.filePath f.fileName) rootPath

/-- The per-folder accumulator of `computeFolderAggregates`. -/
structure FolderAcc where
  files : List ScannedFileRec
  totalPhiCount : Nat
  totalRiskScore : ℤ
  maxRiskLevel : Severity
deriving DecidableEq

/-- The fresh accumulator inserted when a folder key is first seen. -/
def emptyFolderAcc : FolderAcc :=
  { files := [], totalPhiCount := 0, totalRiskScore := 0, maxRiskLevel := .LOW }

instance : Inhabited FolderAcc := ⟨emptyFolderAcc⟩

/-- The loop body of `computeFolderAggregates`: push the file and update the
counters (`file.risk_score || 0`; the max-severity update is guarded by
`file.risk_level` being non-null). -/
def addFileToAcc (acc : FolderAcc) (f : ScannedFileRec) : FolderAcc :=
  { files := acc.files ++ [f]
    totalPhiCount := acc.totalPhiCount + f.phiCount
    totalRiskScore := acc.totalRiskScore + (f.riskScore.getD 0)
    maxRiskLevel :=
      match f.riskLevel with
      | some lv =>
          if getSeverityScore lv > getSeverityScore acc.maxRiskLevel then lv
          else acc.maxRiskLevel
      | none => acc.maxRiskLevel }

/-- Insertion-ordered map update, as a JS `Map` behaves: update the existing
entry in place, or append a fresh one. -/
def mapUpdate (m : List (List Char × FolderAcc)) (k : List Char)
    (f : ScannedFileRec) : List (List Char × FolderAcc) :=
  match m with
  | [] => [(k, addFileToAcc emptyFolderAcc f)]
  | (k', v) :: rest =>
      if k' = k then (k', addFileToAcc v f) :: rest
      else (k', v) :: mapUpdate rest k f

/-- The `folderMap` built by the first loop of `computeFolderAggregates`. -/
def folderFold (files : List ScannedFileRec) (rootPath : List Char) :
    List (List Char × FolderAcc) :=
  files.foldl (fun m f => mapUpdate m (folderKeyOf f rootPath) f) []

/-- One folder-level rollup. -/
structure FolderAggregate where
  folderPath : List Char
  totalFiles : Nat
  totalPhiCount : Nat
  avgRiskScore : ℤ
  maxRiskLevel : Severity
deriving DecidableEq

/-- `computeFolderAggregates(files, rootPath)`. -/
def computeFolderAggregates (files : List ScannedFileRec) (rootPath : List Char) :
    List FolderAggregate :=
  (folderFold files rootPath).map (fun e =>
    { folderPath := e.1
      totalFiles := e.2.files.length
      totalPhiCount := e.2.totalPhiCount
      avgRiskScore :=
        if e.2.files.length > 0 then
          jsRound ((e.2.totalRiskScore : ℚ) / (e.2.files.length : ℚ))
        else 0
      maxRiskLevel := e.2.maxRiskLevel })

-- ===========================================================================
-- The scan orchestrators (createFileScan / createFolderScan), with the
-- persistence collaborator assumed successful and the alerting collaborator
-- modelled by a flag: `alertService.createAlert` is awaited without any
-- try/catch, so a rejection propagates and fails the whole operation.
-- ===========================================================================

deriving instance DecidableEq for Except

/-- Per-file input of a scan request. -/
structure FileInput where
  fileName : List Char
  filePath : Option (List Char)
  content : Option (List Char)
deriving DecidableEq

/-- Output summary of `createFileScan` (scan row fields plus the file's own
scan result). -/
structure FileScanSummary where
  status : List Char
  overallRiskScore : ℤ
  overallRiskLevel : Severity
  totalPhiCount : Nat
  result : PhiScanResult
deriving DecidableEq

/-- `createFileScan`, with persistence succeeding and alerting controlled by
`alertOk`: the scan completes, and afterwards a HIGH/CRITICAL risk level
triggers `createAlert`, whose uncaught rejection fails the returned
promise. -/
def createFileScanModel (content : Option (List Char)) (fileName : List Char)
    (alertOk : Bool) : Except (List Char) FileScanSummary :=
  let r := scanContentForPhi content fileName
  if (r.riskLevel == Severity.HIGH || r.riskLevel == Severity.CRITICAL) && !alertOk then
    .error ("Alert creation failed".toList)
  else
    .ok { status := ("completed".toList)
          overallRiskScore := r.riskScore
          overallRiskLevel := r.riskLevel
          totalPhiCount := r.phiCount
          result := r }

/-- Mutable state of the per-file loop of `createFolderScan`. -/
structure FolderLoopState where
  files : List ScannedFileRec
  totalPhiCount : Nat
  totalRiskScore : ℤ
  maxRiskLevel : Severity
deriving DecidableEq

/-- The `scanned_files` row inserted for one file of a folder scan. -/
def mkScannedRec (f : FileInput) (r : PhiScanResult) : ScannedFileRec :=
  { fileName := f.fileName
    filePath := f.filePath
    riskScore := some r.riskScore
    riskLevel := some r.riskLevel
    phiCount := r.phiCount }

/-- State before the loop of `createFolderScan`. -/
def initFolderState : FolderLoopState :=
  { files := [], totalPhiCount := 0, totalRiskScore := 0, maxRiskLevel := .LOW }

/-- One iteration of the per-file loop of `createFolderScan`: scan,
accumulate, insert the row, and attempt the alert for HIGH/CRITICAL files
(an alert rejection aborts the whole operation, as it is awaited without
try/catch). -/
def folderStep (alertOk : Bool) (st : FolderLoopState) (f : FileInput) :
    Except (List Char) FolderLoopState :=
  let r := scanContentForPhi f.content f.fileName
  let st' : FolderLoopState :=
    { files := st.files ++ [mkScannedRec f r]
      totalPhiCount := st.totalPhiCount + r.phiCount
      totalRiskScore := st.totalRiskScore + r.riskScore
      maxRiskLevel :=
        if getSeverityScore r.riskLevel > getSeverityScore st.maxRiskLevel then r.riskLevel
        else st.maxRiskLevel }
  if (r.riskLevel == Severity.HIGH || r.riskLevel == Severity.CRITICAL) && !alertOk then
    .error ("Alert creation failed".toList)
  else .ok st'

/-- Output summary of `createFolderScan`. -/
structure FolderScanSummary where
  status : List Char
  overallRiskScore : ℤ
  overallRiskLevel : Severity
  totalPhiCount : Nat
  files : List ScannedFileRec
  folderRisks : List FolderAggregate
  highRiskFiles : List ScannedFileRec
deriving DecidableEq

/-- `createFolderScan`, with persistence succeeding and alerting controlled
by `alertOk`. -/
def createFolderScanModel (files : List FileInput) (rootPath : List Char)
    (alertOk : Bool) : Except (List Char) FolderScanSummary :=
  (List.foldlM (folderStep alertOk) initFolderState files).map (fun st =>
    let aggs := computeFolderAggregates st.files rootPath
    let avg : ℤ :=
      if st.files.length > 0 then
        jsRound ((st.totalRiskScore : ℚ) / (st.files.length : ℚ))
      else 0
    { status := ("completed".toList)
      overallRiskScore := avg
      overallRiskLevel := st.maxRiskLevel
      totalPhiCount := st.totalPhiCount
      files := st.files
      folderRisks := aggs
      highRiskFiles :=
        st.files.filter (fun f =>
          f.riskLevel == some Severity.HIGH || f.riskLevel == some Severity.CRITICAL) })

-- ===========================================================================
-- Duplicate lookup (scanService.ts lines 719-759)
-- ===========================================================================

/-- `[...new Set(xs)]`: deduplicate keeping first occurrences. -/
def jsSetDedup (l : List String) : List String :=
  l.foldl (fun acc x => if x ∈ acc then acc else acc ++ [x]) []

/-- First query of `findDuplicateFiles`: the fingerprint ids linked to the
file, read from the `file_fingerprints` link store (a list of
`(file_id, fingerprint_id)` rows). -/
def fingerprintIdsOf (links : List (String × String)) (fileId : String) :
    List String :=
  (links.filter (fun l => l.1 == fileId)).map (fun l => l.2)

/-- `findDuplicateFiles` up to the final detail fetch: the ids of the other
files sharing at least one fingerprint id with `fileId` (the trailing
`select` on `scanned_files` only exchanges these ids for their rows). -/
def duplicatesOf (links : List (String × String)) (fileId : String) :
    List String :=
  let fps := fingerprintIdsOf links fileId
  if fps.isEmpty then []
  else
    jsSetDedup
      ((links.filter (fun l => fps.contains l.2 && l.1 != fileId)).map (fun l => l.1))


/-- The PHI total that the folder invariant predicts for folder key `k`:
the sum of `phi_count` over exactly the files whose folder key is `k`. -/
def phiSumFor (files : List ScannedFileRec) (root k : List Char) : Nat :=
  ((files.filter (fun f => folderKeyOf f root == k)).map (fun f => f.phiCount)).sum

/-- A one-file batch used to witness the batch metrics. -/
def c7Files : List FileInput :=
  [{ fileName := ("hello.txt".toList), filePath := none,
     content := some ("hello".toList) }]

/-- The summary the model produces for `c7Files` under root `"root"`. -/
def c7Summary : FolderScanSummary :=
  { status := ("completed".toList), overallRiskScore := 0,
    overallRiskLevel := .LOW, totalPhiCount := 0,
    files := [{ fileName := ("hello.txt".toList), filePath := none,
                riskScore := some 0, riskLevel := some .LOW, phiCount := 0 }],
    folderRisks := [{ folderPath := ("root".toList), totalFiles := 1,
                      totalPhiCount := 0, avgRiskScore := 0,
                      maxRiskLevel := .LOW }],
    highRiskFiles := [] }

-- ===========================================================================
-- Facts about the matcher, masking, and line numbers
-- ===========================================================================

/-- `regexAvoids c r`: no character class of `r` accepts `c` (so no match of
`r` can contain `c`). -/
def regexAvoids (c : Char) : Regex → Bool
  | .eps => true
  | .cls ranges => !(inClass ranges c)
  | .cat r1 r2 => regexAvoids c r1 && regexAvoids c r2
  | .alt r1 r2 => regexAvoids c r1 && regexAvoids c r2
  | .star r => regexAvoids c r
  | .wb => true

/-- Text of the C8 counterexample: the SSN value also occurs earlier in the
text, embedded in a word (where it is not a match). -/
def c8Text : List Char := ("x123-45-6789x\nSSN: 123-45-6789".toList)

/-- The registry entry of the SSN pattern. -/
def ssnPatternEntry : PhiPattern :=
  { type := .SSN, pattern := ssnRegex, severity := .CRITICAL,
    description := "Social Security Number" }

-- ===========================================================================
-- Claim C1: scenario 1 (the SSN sample)
-- ===========================================================================

/-- The finding produced by scenario 1. -/
def ssnScenarioFinding : Finding :=
  { phiType := .SSN, severity := .CRITICAL, occurrences := 1,
    sampleSnippet := ("12*******89".toList), lineNumber := some 1,
    confidenceScore := 17 / 20 }

/-- C1: scanning the content `"SSN: 123-45-6789"` (under any logical name)
produces exactly one Finding, of category SSN, severity CRITICAL, with one
occurrence and masked sample `"12*******89"`; the scorer on that finding
list gives risk score 100, hence risk level CRITICAL. -/
theorem c1_ssn_scenario (logicalName : List Char) :
    (scanContentForPhi (some ("SSN: 123-45-6789".toList)) logicalName).findings =
      [ssnScenarioFinding] ∧
    calculateRiskScore 1 [ssnScenarioFinding] = 100 ∧
    (scanContentForPhi (some ("SSN: 123-45-6789".toList)) logicalName).riskScore = 100 ∧
    (scanContentForPhi (some ("SSN: 123-45-6789".toList)) logicalName).riskLevel =
      .CRITICAL := by
  have h : scanContentForPhi (some ("SSN: 123-45-6789".toList)) logicalName =
      scanText ("SSN: 123-45-6789".toList) := rfl
  rw [h]
  refine ⟨?_, ?_, ?_, ?_⟩ <;> with_unfolding_all decide

-- ===========================================================================
-- Claim C2: an alerting failure aborts the scan operation
-- ===========================================================================

/-- C2 (code bug): for a CRITICAL-risk file, when the alerting
collaborator's `createAlert` rejects, `createFileScan` does not return its
completed result: the uncaught `await` makes the whole operation fail. The
same uncaught `await` appears in the per-file loop of `createFolderScan`. -/
theorem c2_alert_failure_fails_scan :
    createFileScanModel (some ("SSN: 123-45-6789".toList)) ("records.txt".toList)
        false =
      .error ("Alert creation failed".toList) ∧
    createFolderScanModel
        [{ fileName := ("records.txt".toList), filePath := none,
           content := some ("SSN: 123-45-6789".toList) }] ("root".toList) false =
      .error ("Alert creation failed".toList) := by
  constructor <;> with_unfolding_all decide

-- ===========================================================================
-- Claim C10: a batch scan over an empty file list completes
-- ===========================================================================

/-- C10: a folder scan over an empty file list does not fail (with the
persistence collaborator succeeding): it completes with risk score 0, level
LOW, no PHI, and empty file/folder/high-risk lists, whatever the root path
and whether alerting would succeed. -/
theorem c10_empty_batch (rootPath : List Char) (alertOk : Bool) :
    createFolderScanModel [] rootPath alertOk =
      .ok { status := ("completed".toList), overallRiskScore := 0,
            overallRiskLevel := .LOW, totalPhiCount := 0, files := [],
            folderRisks := [], highRiskFiles := [] } := rfl

-- ===========================================================================
-- Claim C5: provided content versus the synthetic fallback
-- ===========================================================================

/-- C5 counterexample: the empty string is a provided content string, yet
the scanner substitutes the synthetic fallback for it (JS `||` treats `""`
as absent): with a file name whose fallback text contains an SSN, the scan
of provided content `""` reports one PHI instance, whereas scanning the
empty string itself reports none. -/
theorem c5_empty_content_counterexample :
    (scanContentForPhi (some []) ("123-45-6789".toList)).phiCount = 1 ∧
    (scanText []).phiCount = 0 ∧
    scanContentForPhi (some []) ("123-45-6789".toList) ≠ scanText [] := by
  refine ⟨?_, ?_, ?_⟩ <;> with_unfolding_all decide

/-- C5 (amended): for every call where the caller passes a NONEMPTY content
string, the scanner scans exactly that string — the result does not depend
on the logical name, and the fallback is bypassed; the fallback is used
only when content is absent or is the empty string. -/
theorem c5_nonempty_content_scanned (content : List Char) (hne : content ≠ [])
    (name1 name2 : List Char) :
    scanContentForPhi (some content) name1 = scanText content ∧
    scanContentForPhi (some content) name1 = scanContentForPhi (some content) name2 := by
  have he : content.isEmpty = false := by
    cases content with
    | nil => exact absurd rfl hne
    | cons c cs => rfl
  have h1 : ∀ nm : List Char, scanContentForPhi (some content) nm = scanText content := by
    intro nm
    simp [scanContentForPhi, jsOrStr, he]
  exact ⟨h1 name1, (h1 name1).trans (h1 name2).symm⟩

/-- Witness for C5 at a concrete nonempty content. -/
theorem c5_nonempty_content_scanned_witness :
    ("x".toList ≠ []) ∧
    (scanContentForPhi (some ("x".toList)) ("patient.txt".toList) =
        scanText ("x".toList) ∧
      scanContentForPhi (some ("x".toList)) ("patient.txt".toList) =
        scanContentForPhi (some ("x".toList)) ("billing.txt".toList)) :=
  ⟨by decide, c5_nonempty_content_scanned ("x".toList) (by decide)
    ("patient.txt".toList) ("billing.txt".toList)⟩


-- ===========================================================================
-- Matcher lemmas (towards C4 and C8)
-- ===========================================================================

/-- A `runs` result splits the subject: consumed part plus rest. -/
theorem runs_append (fuel : Nat) :
    ∀ (r : Regex) (prev : Option Char) (s : List Char)
      (pr : List Char × List Char), pr ∈ runs fuel r prev s → s = pr.1 ++ pr.2 := by
  induction fuel with
  | zero => intro r prev s pr h; simp [runs] at h
  | succ fuel ih =>
    intro r prev s pr h
    cases r with
    | eps =>
      simp only [runs, List.mem_singleton] at h
      subst h; rfl
    | cls rs =>
      cases s with
      | nil => simp [runs] at h
      | cons c cs =>
        simp only [runs] at h
        split at h
        · simp only [List.mem_singleton] at h; subst h; rfl
        · simp at h
    | wb =>
      simp only [runs] at h
      split at h
      · simp only [List.mem_singleton] at h; subst h; rfl
      · simp at h
    | alt r1 r2 =>
      simp only [runs, List.mem_append] at h
      rcases h with h | h
      · exact ih r1 prev s pr h
      · exact ih r2 prev s pr h
    | cat r1 r2 =>
      simp only [runs, List.mem_flatMap, List.mem_map] at h
      obtain ⟨pr1, h1, qr, h2, heq⟩ := h
      have e1 := ih r1 prev s pr1 h1
      have e2 := ih r2 (lastOr pr1.1 prev) pr1.2 qr h2
      subst heq
      rw [e1, e2, List.append_assoc]
    | star r =>
      simp only [runs, List.mem_append, List.mem_flatMap, List.mem_map,
        List.mem_filter, List.mem_singleton] at h
      rcases h with ⟨pr1, ⟨h1, _⟩, qr, h2, heq⟩ | h
      · have e1 := ih r prev s pr1 h1
        have e2 := ih (.star r) (lastOr pr1.1 prev) pr1.2 qr h2
        subst heq
        rw [e1, e2, List.append_assoc]
      · subst h; rfl

/-- No match of a regex that avoids `c` contains `c`. -/
theorem runs_avoids (c : Char) (fuel : Nat) :
    ∀ (r : Regex) (prev : Option Char) (s : List Char)
      (pr : List Char × List Char), regexAvoids c r = true →
      pr ∈ runs fuel r prev s → c ∉ pr.1 := by
  induction fuel with
  | zero => intro r prev s pr _ h; simp [runs] at h
  | succ fuel ih =>
    intro r prev s pr hav h
    cases r with
    | eps =>
      simp only [runs, List.mem_singleton] at h
      subst h; simp
    | cls rs =>
      cases s with
      | nil => simp [runs] at h
      | cons d cs =>
        simp only [runs] at h
        split at h
        · rename_i hd
          simp only [List.mem_singleton] at h
          subst h
          intro hc
          simp only [List.mem_singleton] at hc
          subst hc
          simp only [regexAvoids, Bool.not_eq_true'] at hav
          rw [hav] at hd
          exact Bool.false_ne_true hd
        · simp at h
    | wb =>
      simp only [runs] at h
      split at h
      · simp only [List.mem_singleton] at h; subst h; simp
      · simp at h
    | alt r1 r2 =>
      simp only [regexAvoids, Bool.and_eq_true] at hav
      simp only [runs, List.mem_append] at h
      rcases h with h | h
      · exact ih r1 prev s pr hav.1 h
      · exact ih r2 prev s pr hav.2 h
    | cat r1 r2 =>
      simp only [regexAvoids, Bool.and_eq_true] at hav
      simp only [runs, List.mem_flatMap, List.mem_map] at h
      obtain ⟨pr1, h1, qr, h2, heq⟩ := h
      have n1 := ih r1 prev s pr1 hav.1 h1
      have n2 := ih r2 (lastOr pr1.1 prev) pr1.2 qr hav.2 h2
      subst heq
      simp only [List.mem_append]
      rintro (hc | hc)
      · exact n1 hc
      · exact n2 hc
    | star r =>
      simp only [regexAvoids] at hav
      simp only [runs, List.mem_append, List.mem_flatMap, List.mem_map,
        List.mem_filter, List.mem_singleton] at h
      rcases h with ⟨pr1, ⟨h1, _⟩, qr, h2, heq⟩ | h
      · have n1 := ih r prev s pr1 hav h1
        have n2 := ih (.star r) (lastOr pr1.1 prev) pr1.2 qr (by simpa [regexAvoids] using hav) h2
        subst heq
        simp only [List.mem_append]
        rintro (hc | hc)
        · exact n1 hc
        · exact n2 hc
      · subst h; simp


/-- Every reported match arises from a successful `runs` attempt and occurs
(as a contiguous block) in the scanned suffix. -/
theorem jsMatchAux_spec (fuel : Nat) :
    ∀ (r : Regex) (prev : Option Char) (s : List Char) (off : Nat)
      (p : Nat × List Char), p ∈ jsMatchAux fuel r prev s off →
      (∃ fl pv s2 rest, (p.2, rest) ∈ runs fl r pv s2) ∧
      ∃ a b, s = a ++ p.2 ++ b := by
  induction fuel with
  | zero => intro r prev s off p h; simp [jsMatchAux] at h
  | succ fuel ih =>
    intro r prev s off p h
    simp only [jsMatchAux] at h
    split at h
    · rename_i t rest heq
      have hmem : (t, rest) ∈ runs (bigFuel r s) r prev s := by
        obtain ⟨ys, hy⟩ := List.head?_eq_some_iff.mp heq
        rw [hy]; exact List.mem_cons_self _ _
      have hsplit : s = t ++ rest := runs_append _ _ _ _ _ hmem
      split at h
      · rcases List.mem_cons.mp h with hp | h
        · subst hp
          exact ⟨⟨_, _, _, rest, hmem⟩, [], rest, by simpa using hsplit⟩
        · cases s with
          | nil => exact (List.not_mem_nil p h).elim
          | cons ch cs =>
            obtain ⟨hruns, a, b, hab⟩ := ih r (some ch) cs (off + 1) p h
            exact ⟨hruns, ch :: a, b, by simp [hab]⟩
      · rcases List.mem_cons.mp h with hp | h
        · subst hp
          exact ⟨⟨_, _, _, rest, hmem⟩, [], rest, by simpa using hsplit⟩
        · obtain ⟨hruns, a, b, hab⟩ := ih r (lastOr t prev) rest (off + t.length) p h
          exact ⟨hruns, t ++ a, b, by simp [hsplit, hab]⟩
    · cases s with
      | nil => exact (List.not_mem_nil p h).elim
      | cons ch cs =>
        obtain ⟨hruns, a, b, hab⟩ := ih r (some ch) cs (off + 1) p h
        exact ⟨hruns, ch :: a, b, by simp [hab]⟩

/-- Every string in a `match` result is a match of the regex and occurs in
the scanned text. -/
theorem jsMatch_spec {r : Regex} {s v : List Char} (h : v ∈ jsMatch r s) :
    (∃ fl pv s2 rest, (v, rest) ∈ runs fl r pv s2) ∧ ∃ a b, s = a ++ v ++ b := by
  simp only [jsMatch, jsMatchOff, List.mem_map] at h
  obtain ⟨p, hp, hv⟩ := h
  subst hv
  exact jsMatchAux_spec _ r none s 0 p hp

/-- A character avoided by the regex never appears in a reported match. -/
theorem jsMatch_avoids {c : Char} {r : Regex} (hav : regexAvoids c r = true)
    {s v : List Char} (h : v ∈ jsMatch r s) : c ∉ v := by
  obtain ⟨⟨fl, pv, s2, rest, hm⟩, -⟩ := jsMatch_spec h
  exact runs_avoids c fl r pv s2 (v, rest) hav hm

/-- `indexOf` succeeds when the needle starts the haystack. -/
theorem listIndexOf_front_isSome (v b : List Char) :
    (listIndexOf (v ++ b) v).isSome := by
  cases h : v ++ b with
  | nil =>
    have hv : v = [] := (List.append_eq_nil.mp h).1
    subst hv
    simp [listIndexOf]
  | cons c cs =>
    rw [listIndexOf]
    have htake : (c :: cs).take v.length = v := by
      rw [← h]; exact List.take_left v b
    rw [htake]
    simp

/-- `indexOf` succeeds whenever the needle occurs in the haystack. -/
theorem listIndexOf_isSome_of_occurs (v : List Char) :
    ∀ (a b s : List Char), s = a ++ (v ++ b) → (listIndexOf s v).isSome := by
  intro a
  induction a with
  | nil =>
    intro b s hs
    rw [hs, List.nil_append]
    exact listIndexOf_front_isSome v b
  | cons c a2 ih =>
    intro b s hs
    subst hs
    rw [List.cons_append, listIndexOf]
    split
    · simp
    · have hrec := ih b (a2 ++ (v ++ b)) rfl
      cases hx : listIndexOf (a2 ++ (v ++ b)) v with
      | none => simp [hx] at hrec
      | some i => simp

/-- `split` never returns the empty list. -/
theorem splitOnChar_ne_nil (sep : Char) (s : List Char) :
    splitOnChar sep s ≠ [] := by
  cases s with
  | nil => simp [splitOnChar]
  | cons c cs =>
    rw [splitOnChar]
    split
    · simp
    · cases h : splitOnChar sep cs <;> simp

/-- The number of pieces of `split` is the separator count plus one. -/
theorem length_splitOnChar (sep : Char) (s : List Char) :
    (splitOnChar sep s).length = s.count sep + 1 := by
  induction s with
  | nil => simp [splitOnChar]
  | cons c cs ih =>
    rw [splitOnChar]
    by_cases h : c = sep
    · subst h
      rw [if_pos rfl, List.length_cons, ih, List.count_cons_self]
    · rw [if_neg h]
      cases hs : splitOnChar sep cs with
      | nil => exact absurd hs (splitOnChar_ne_nil sep cs)
      | cons hh tt =>
        have hlen := ih
        rw [hs] at hlen
        have hbe : (c == sep) = false := beq_eq_false_iff_ne.mpr h
        show ((c :: hh) :: tt).length = (c :: cs).count sep + 1
        rw [List.count_cons]
        simp only [hbe, Bool.false_eq_true, if_false, List.length_cons]
        simp only [List.length_cons] at hlen
        omega


-- ===========================================================================
-- Claim C4: masking
-- ===========================================================================

/-- Every registry pattern avoids the mask character. -/
theorem phi_patterns_avoid_mask_char :
    ∀ p ∈ PHI_PATTERNS, regexAvoids '*' p.pattern = true := by decide

/-- C4: the masked sample is `"****"` for short values and first-2 /
mask-run / last-2 otherwise; consequently a value of length above 4 matched
by a registry pattern never occurs as a substring of its masked sample. -/
theorem c4_masking (p : PhiPattern) (hp : p ∈ PHI_PATTERNS) (text v : List Char)
    (hv : v ∈ jsMatch p.pattern text) :
    (v.length ≤ 4 → maskSensitiveData v p.type = ("****".toList)) ∧
    (4 < v.length →
      maskSensitiveData v p.type =
        v.take 2 ++ List.replicate (v.length - 4) '*' ++ v.drop (v.length - 2) ∧
      ∀ a b : List Char, a ++ v ++ b ≠ maskSensitiveData v p.type) := by
  have hstar : '*' ∉ v :=
    jsMatch_avoids (phi_patterns_avoid_mask_char p hp) hv
  refine ⟨fun hle => by rw [maskSensitiveData, if_pos hle], fun hgt => ⟨?_, ?_⟩⟩
  · rw [maskSensitiveData, if_neg (by omega)]
  · intro a b heq
    have hmask : maskSensitiveData v p.type =
        v.take 2 ++ List.replicate (v.length - 4) '*' ++ v.drop (v.length - 2) := by
      rw [maskSensitiveData, if_neg (by omega)]
    have hlenmask : (maskSensitiveData v p.type).length = v.length := by
      rw [hmask]
      simp only [List.length_append, List.length_take, List.length_replicate,
        List.length_drop]
      omega
    have hlens := congrArg List.length heq
    rw [hlenmask] at hlens
    simp only [List.length_append] at hlens
    have ha : a = [] := List.length_eq_zero.mp (by omega)
    have hb : b = [] := List.length_eq_zero.mp (by omega)
    subst ha; subst hb
    simp only [List.nil_append, List.append_nil] at heq
    have hstar2 : '*' ∈ maskSensitiveData v p.type := by
      rw [hmask]
      refine List.mem_append.mpr (Or.inl (List.mem_append.mpr (Or.inr ?_)))
      exact List.mem_replicate.mpr ⟨by omega, rfl⟩
    rw [← heq] at hstar2
    exact hstar hstar2

/-- Witness for C4 at the SSN pattern and scenario-1 match. -/
theorem c4_masking_witness :
    ((("123-45-6789".toList)).length ≤ 4 →
      maskSensitiveData ("123-45-6789".toList) ssnPatternEntry.type =
        ("****".toList)) ∧
    (4 < ("123-45-6789".toList).length →
      maskSensitiveData ("123-45-6789".toList) ssnPatternEntry.type =
        ("123-45-6789".toList).take 2 ++
          List.replicate (("123-45-6789".toList).length - 4) '*' ++
          ("123-45-6789".toList).drop (("123-45-6789".toList).length - 2) ∧
      ∀ a b : List Char,
        a ++ ("123-45-6789".toList) ++ b ≠
          maskSensitiveData ("123-45-6789".toList) ssnPatternEntry.type) :=
  c4_masking ssnPatternEntry (by decide) ("SSN: 123-45-6789".toList)
    ("123-45-6789".toList) (by decide)

-- ===========================================================================
-- Claim C8: line numbers
-- ===========================================================================

/-- C8 (amended): the emitted line number is 1 plus the count of newlines
preceding the first OCCURRENCE (`indexOf`) of the first match's text — which
is the first match's offset only when that text does not also occur
earlier in the scanned text. -/
theorem c8_line_number_from_indexOf (text : List Char) (p : PhiPattern)
    (f : Finding) (hf : findingFor text p = some f) :
    ∃ m rest i, jsMatch p.pattern text = m :: rest ∧
      listIndexOf text m = some i ∧
      f.lineNumber = some ((text.take i).count '\n' + 1) := by
  simp only [findingFor] at hf
  cases hms : jsMatch p.pattern text with
  | nil => rw [hms] at hf; simp at hf
  | cons m rest =>
    rw [hms] at hf
    simp only [List.isEmpty_cons, Bool.false_eq_true, if_false] at hf
    have hf2 := Option.some.inj hf
    subst hf2
    have hvmem : m ∈ jsMatch p.pattern text := by
      rw [hms]; exact List.mem_cons_self _ _
    obtain ⟨-, a, b, hab⟩ := jsMatch_spec hvmem
    have hsome : (listIndexOf text m).isSome :=
      listIndexOf_isSome_of_occurs m a b text (by rw [hab, List.append_assoc])
    obtain ⟨i, hi⟩ := Option.isSome_iff_exists.mp hsome
    refine ⟨m, rest, i, rfl, hi, ?_⟩
    simp [hi, length_splitOnChar]

/-- Witness for C8 at the scenario-1 text. -/
theorem c8_line_number_from_indexOf_witness :
    ∃ m rest i,
      jsMatch ssnPatternEntry.pattern ("SSN: 123-45-6789".toList) = m :: rest ∧
      listIndexOf ("SSN: 123-45-6789".toList) m = some i ∧
      ssnScenarioFinding.lineNumber =
        some (((("SSN: 123-45-6789".toList)).take i).count '\n' + 1) :=
  c8_line_number_from_indexOf ("SSN: 123-45-6789".toList) ssnPatternEntry
    ssnScenarioFinding (by with_unfolding_all decide)

/-- C8 counterexample: in `c8Text` the SSN pattern's first (and only) match
is at offset 19, on line 2 (one newline precedes it), but the matched text
also occurs earlier, embedded in a word, so `indexOf` finds offset 1 and
the emitted line number is 1. -/
theorem c8_line_number_counterexample :
    (jsMatchOff ssnRegex c8Text).head? = some (19, ("123-45-6789".toList)) ∧
    (c8Text.take 19).count '\n' + 1 = 2 ∧
    (findingFor c8Text ssnPatternEntry).map Finding.lineNumber = some (some 1) := by
  refine ⟨?_, ?_, ?_⟩ <;> decide


-- ===========================================================================
-- Claim C9: duplicate symmetry
-- ===========================================================================

/-- Membership in the JS set-dedup is membership in the original list. -/
theorem mem_jsSetDedup {x : String} {l : List String} :
    x ∈ jsSetDedup l ↔ x ∈ l := by
  have key : ∀ (l acc : List String),
      (x ∈ l.foldl (fun acc x => if x ∈ acc then acc else acc ++ [x]) acc ↔
        x ∈ acc ∨ x ∈ l) := by
    intro l
    induction l with
    | nil => intro acc; simp
    | cons y ys ih =>
      intro acc
      simp only [List.foldl_cons]
      by_cases hy : y ∈ acc
      · rw [if_pos hy, ih]
        constructor
        · rintro (h | h)
          · exact Or.inl h
          · exact Or.inr (List.mem_cons_of_mem _ h)
        · rintro (h | h)
          · exact Or.inl h
          · rcases List.mem_cons.mp h with rfl | h
            · exact Or.inl hy
            · exact Or.inr h
      · rw [if_neg hy, ih]
        simp only [List.mem_append, List.mem_singleton, List.mem_cons]
        tauto
  rw [jsSetDedup, key]
  simp

/-- A fingerprint id is linked to a file exactly when the pair is a row of
the link store. -/
theorem mem_fingerprintIdsOf {links : List (String × String)} {x fp : String} :
    fp ∈ fingerprintIdsOf links x ↔ (x, fp) ∈ links := by
  simp only [fingerprintIdsOf, List.mem_map, List.mem_filter]
  constructor
  · rintro ⟨⟨l1, l2⟩, ⟨hl, he⟩, rfl⟩
    simp only [beq_iff_eq] at he
    subst he
    exact hl
  · intro h
    exact ⟨(x, fp), ⟨h, by simp⟩, rfl⟩

/-- C9: the duplicate relation is symmetric in every state of the
file-to-fingerprint link store. -/
theorem c9_duplicate_symmetry (links : List (String × String)) (a b : String)
    (h : b ∈ duplicatesOf links a) : a ∈ duplicatesOf links b := by
  simp only [duplicatesOf] at h ⊢
  split at h
  · exact (List.not_mem_nil b h).elim
  · rw [mem_jsSetDedup] at h
    simp only [List.mem_map, List.mem_filter, Bool.and_eq_true, bne_iff_ne] at h
    obtain ⟨⟨l1, l2⟩, ⟨hl, hfp, hne⟩, hb⟩ := h
    simp only at hb hne hfp
    subst hb
    have hafp : (a, l2) ∈ links := mem_fingerprintIdsOf.mp (List.elem_iff.mp hfp)
    have hbfp : l2 ∈ fingerprintIdsOf links l1 := mem_fingerprintIdsOf.mpr hl
    have hb3 : (fingerprintIdsOf links l1).isEmpty = false :=
      List.isEmpty_eq_false.mpr (List.ne_nil_of_mem hbfp)
    rw [if_neg (by simp [hb3]), mem_jsSetDedup]
    simp only [List.mem_map, List.mem_filter, Bool.and_eq_true, bne_iff_ne]
    exact ⟨(a, l2), ⟨hafp, List.elem_iff.mpr hbfp, Ne.symm hne⟩, rfl⟩

/-- Witness for C9 on a two-row link store. -/
theorem c9_duplicate_symmetry_witness :
    ("B" ∈ duplicatesOf [("A", "f1"), ("B", "f1")] ("A")) ∧
    ("A") ∈ duplicatesOf [("A", "f1"), ("B", "f1")] ("B") :=
  ⟨by decide, c9_duplicate_symmetry [("A", "f1"), ("B", "f1")] ("A") ("B") (by decide)⟩


-- ===========================================================================
-- Claim C3: risk score bounds
-- ===========================================================================

/-- `calculateRiskScore` with its local bindings inlined. -/
theorem calculateRiskScore_def (phi : Nat) (fs : List Finding) :
    calculateRiskScore phi fs =
      if phi = 0 then 0
      else
        min (jsRound ((if ((fs.length : ℚ)) > 0 then
            ((fs.map (fun f => ((getSeverityScore f.severity : ℚ) / 100) *
              (1 + min ((f.occurrences : ℚ) / 10) 1))).sum) / (fs.length : ℚ) * 100
          else 0) + min ((phi : ℚ) * 2) 20)) 100 := rfl

/-- The severity score is at least 25. -/
theorem severityScore_ge (sv : Severity) : 25 ≤ getSeverityScore sv := by
  cases sv <;> decide

/-- Each finding's weighted term lies between 1/4 and above 0. -/
theorem weightTerm_ge_quarter (f : Finding) :
    (1 : ℚ) / 4 ≤ ((getSeverityScore f.severity : ℚ) / 100) *
      (1 + min ((f.occurrences : ℚ) / 10) 1) := by
  have h1 : (25 : ℚ) ≤ (getSeverityScore f.severity : ℚ) := by
    exact_mod_cast severityScore_ge f.severity
  have h2 : (0 : ℚ) ≤ min ((f.occurrences : ℚ) / 10) 1 :=
    le_min (by positivity) (by norm_num)
  nlinarith

/-- C3: when every finding has at least one occurrence, the risk score (as
computed for the scan, with `phiCount` the sum of occurrences) lies in
[0, 100], and is 0 exactly for the empty findings list. -/
theorem c3_risk_score_bounds (findings : List Finding)
    (hocc : ∀ f ∈ findings, 1 ≤ f.occurrences) :
    0 ≤ calculateRiskScore ((findings.map (fun f => f.occurrences)).sum) findings ∧
    calculateRiskScore ((findings.map (fun f => f.occurrences)).sum) findings ≤ 100 ∧
    (calculateRiskScore ((findings.map (fun f => f.occurrences)).sum) findings = 0 ↔
      findings = []) := by
  cases findings with
  | nil =>
    refine ⟨by rw [calculateRiskScore_def]; norm_num, by rw [calculateRiskScore_def]; norm_num, ?_⟩
    simp [calculateRiskScore_def]
  | cons f0 fs =>
    set F := f0 :: fs with hF
    set phi := (F.map (fun f => f.occurrences)).sum with hphidef
    have hphi1 : 1 ≤ phi := by
      have h1 := hocc f0 (by rw [hF]; exact List.mem_cons_self f0 fs)
      have : phi = f0.occurrences + (fs.map (fun f => f.occurrences)).sum := by
        rw [hphidef, hF]; simp
      omega
    have hphi : phi ≠ 0 := by omega
    have hlen : (0 : ℚ) < (F.length : ℚ) := by
      rw [hF]
      have h0 : 0 < (f0 :: fs).length := Nat.succ_pos fs.length
      exact_mod_cast h0
    set W : ℚ := (F.map (fun f => ((getSeverityScore f.severity : ℚ) / 100) *
      (1 + min ((f.occurrences : ℚ) / 10) 1))).sum with hW
    set B : ℚ := min ((phi : ℚ) * 2) 20 with hB
    have hscore : calculateRiskScore phi F =
        min (jsRound (W / (F.length : ℚ) * 100 + B)) 100 := by
      rw [calculateRiskScore_def, if_neg hphi, if_pos hlen]
    have hWlow : (F.length : ℚ) * (1 / 4) ≤ W := by
      have h0 := List.card_nsmul_le_sum
        (F.map (fun f => ((getSeverityScore f.severity : ℚ) / 100) *
          (1 + min ((f.occurrences : ℚ) / 10) 1))) ((1 : ℚ) / 4) ?_
      · rw [List.length_map, nsmul_eq_mul] at h0
        rw [← hW] at h0
        exact h0
      · intro x hx
        obtain ⟨f, -, rfl⟩ := List.mem_map.mp hx
        exact weightTerm_ge_quarter f
    have hbase : (25 : ℚ) ≤ W / (F.length : ℚ) * 100 := by
      have hdiv : (1 : ℚ) / 4 ≤ W / (F.length : ℚ) := by
        rw [le_div_iff₀ hlen]
        linarith [hWlow]
      nlinarith
    have hbonus : (2 : ℚ) ≤ B := by
      rw [hB]
      refine le_min ?_ (by norm_num)
      have : (1 : ℚ) ≤ (phi : ℚ) := by exact_mod_cast hphi1
      linarith
    have hq : (27 : ℚ) ≤ W / (F.length : ℚ) * 100 + B := by linarith
    have hround : (27 : ℤ) ≤ jsRound (W / (F.length : ℚ) * 100 + B) := by
      rw [jsRound]
      rw [Int.le_floor]
      push_cast
      linarith
    have hpos : (1 : ℤ) ≤ min (jsRound (W / (F.length : ℚ) * 100 + B)) 100 :=
      le_min (by omega) (by norm_num)
    refine ⟨by rw [hscore]; omega, by rw [hscore]; exact min_le_right _ _, ?_⟩
    constructor
    · intro h0
      rw [hscore] at h0
      omega
    · intro h0
      exact absurd h0 (by rw [hF]; simp)

/-- Witness for C3 at the scenario-1 finding list. -/
theorem c3_risk_score_bounds_witness :
    (∀ f ∈ [ssnScenarioFinding], 1 ≤ f.occurrences) ∧
    (0 ≤ calculateRiskScore
        (([ssnScenarioFinding].map (fun f => f.occurrences)).sum) [ssnScenarioFinding] ∧
      calculateRiskScore
        (([ssnScenarioFinding].map (fun f => f.occurrences)).sum) [ssnScenarioFinding] ≤ 100 ∧
      (calculateRiskScore
          (([ssnScenarioFinding].map (fun f => f.occurrences)).sum) [ssnScenarioFinding] = 0 ↔
        [ssnScenarioFinding] = [])) :=
  ⟨by decide, c3_risk_score_bounds [ssnScenarioFinding] (by decide)⟩


-- ===========================================================================
-- Claim C6: folder aggregation partitions the files
-- ===========================================================================

/-- Keys of the folder map after an update: unchanged for a known key,
appended for a fresh one. -/
theorem keys_mapUpdate (m : List (List Char × FolderAcc)) (k : List Char)
    (f : ScannedFileRec) :
    (mapUpdate m k f).map (fun e => e.1) =
      if k ∈ m.map (fun e => e.1) then m.map (fun e => e.1)
      else m.map (fun e => e.1) ++ [k] := by
  induction m with
  | nil => simp [mapUpdate]
  | cons e rest ih =>
    obtain ⟨k2, v⟩ := e
    rw [mapUpdate]
    by_cases hk : k2 = k
    · subst hk
      rw [if_pos rfl]
      simp [List.mem_cons]
    · rw [if_neg hk]
      simp only [List.map_cons, ih]
      by_cases hmem : k ∈ rest.map (fun e => e.1)
      · rw [if_pos hmem, if_pos (by simp [hmem])]
      · rw [if_neg hmem, if_neg ?_]
        · simp
        · simp only [List.mem_cons]
          rintro (h | h)
          · exact hk h.symm
          · exact hmem h

/-- The map's PHI grand total grows by the file's count on each update. -/
theorem sumPhi_mapUpdate (m : List (List Char × FolderAcc)) (k : List Char)
    (f : ScannedFileRec) :
    ((mapUpdate m k f).map (fun e => e.2.totalPhiCount)).sum =
      ((m.map (fun e => e.2.totalPhiCount)).sum) + f.phiCount := by
  induction m with
  | nil => simp [mapUpdate, addFileToAcc, emptyFolderAcc]
  | cons e rest ih =>
    obtain ⟨k2, v⟩ := e
    rw [mapUpdate]
    by_cases hk : k2 = k
    · subst hk
      rw [if_pos rfl]
      simp [addFileToAcc]
      omega
    · rw [if_neg hk]
      simp only [List.map_cons, List.sum_cons, ih]
      omega

/-- Where an entry of an updated map comes from (under distinct keys). -/
theorem mem_mapUpdate (m : List (List Char × FolderAcc)) (k : List Char)
    (f : ScannedFileRec) (e : List Char × FolderAcc)
    (hnd : (m.map (fun x => x.1)).Nodup) (he : e ∈ mapUpdate m k f) :
    (e ∈ m ∧ e.1 ≠ k) ∨
    (∃ v, (k, v) ∈ m ∧ e = (k, addFileToAcc v f)) ∨
    (k ∉ m.map (fun x => x.1) ∧ e = (k, addFileToAcc emptyFolderAcc f)) := by
  induction m with
  | nil =>
    simp only [mapUpdate, List.mem_singleton] at he
    exact Or.inr (Or.inr ⟨by simp, he⟩)
  | cons e0 rest ih =>
    obtain ⟨k2, v⟩ := e0
    simp only [List.map_cons, List.nodup_cons] at hnd
    rw [mapUpdate] at he
    by_cases hk : k2 = k
    · subst hk
      rw [if_pos rfl] at he
      rcases List.mem_cons.mp he with rfl | he
      · exact Or.inr (Or.inl ⟨v, List.mem_cons_self _ _, rfl⟩)
      · left
        refine ⟨List.mem_cons_of_mem _ he, ?_⟩
        intro hek
        exact hnd.1 (hek ▸ List.mem_map_of_mem (fun x => x.1) he)
    · rw [if_neg hk] at he
      rcases List.mem_cons.mp he with rfl | he
      · exact Or.inl ⟨List.mem_cons_self _ _, fun h => hk h⟩
      · rcases ih hnd.2 he with ⟨h1, h2⟩ | ⟨v2, h1, h2⟩ | ⟨h1, h2⟩
        · exact Or.inl ⟨List.mem_cons_of_mem _ h1, h2⟩
        · exact Or.inr (Or.inl ⟨v2, List.mem_cons_of_mem _ h1, h2⟩)
        · refine Or.inr (Or.inr ⟨?_, h2⟩)
          simp only [List.map_cons, List.mem_cons]
          rintro (h | h)
          · exact hk h.symm
          · exact h1 h

/-- Appending one file to the batch adds its count to exactly its folder's
predicted total. -/
theorem phiSumFor_append (l : List ScannedFileRec) (f : ScannedFileRec)
    (root k : List Char) :
    phiSumFor (l ++ [f]) root k =
      phiSumFor l root k +
        (if folderKeyOf f root = k then f.phiCount else 0) := by
  simp only [phiSumFor, List.filter_append]
  by_cases h : folderKeyOf f root = k
  · simp [h]
  · simp [h]

/-- Invariant of the folder-map loop: keys stay distinct, every processed
file's key is present, and each entry's PHI total is the sum over exactly
its folder's files. -/
theorem folderFold_invariant (root : List Char) (files : List ScannedFileRec) :
    ∀ (m : List (List Char × FolderAcc)) (processed : List ScannedFileRec),
      ((m.map (fun e => e.1)).Nodup) →
      (∀ f ∈ processed, folderKeyOf f root ∈ m.map (fun e => e.1)) →
      (∀ e ∈ m, e.2.totalPhiCount = phiSumFor processed root e.1) →
      (((List.foldl (fun m f => mapUpdate m (folderKeyOf f root) f) m files).map
          (fun e => e.1)).Nodup) ∧
      (∀ e ∈ List.foldl (fun m f => mapUpdate m (folderKeyOf f root) f) m files,
        e.2.totalPhiCount = phiSumFor (processed ++ files) root e.1) := by
  induction files with
  | nil =>
    intro m processed hnd _hcov hinv
    simp only [List.foldl_nil, List.append_nil]
    exact ⟨hnd, hinv⟩
  | cons f fl ih =>
    intro m processed hnd hcov hinv
    simp only [List.foldl_cons]
    set kf := folderKeyOf f root with hkf
    have hnd2 : ((mapUpdate m kf f).map (fun e => e.1)).Nodup := by
      rw [keys_mapUpdate]
      by_cases hmem : kf ∈ m.map (fun e => e.1)
      · rwa [if_pos hmem]
      · rw [if_neg hmem]
        simp [List.nodup_append, hnd, hmem]
    have hcov2 : ∀ g ∈ processed ++ [f],
        folderKeyOf g root ∈ (mapUpdate m kf f).map (fun e => e.1) := by
      intro g hg
      rw [keys_mapUpdate]
      rcases List.mem_append.mp hg with hg | hg
      · have := hcov g hg
        by_cases hmem : kf ∈ m.map (fun e => e.1)
        · rwa [if_pos hmem]
        · rw [if_neg hmem]
          exact List.mem_append.mpr (Or.inl this)
      · rcases List.mem_singleton.mp hg with rfl
        by_cases hmem : kf ∈ m.map (fun e => e.1)
        · rwa [if_pos hmem]
        · rw [if_neg hmem]
          exact List.mem_append.mpr (Or.inr (List.mem_singleton.mpr rfl))
    have hinv2 : ∀ e ∈ mapUpdate m kf f,
        e.2.totalPhiCount = phiSumFor (processed ++ [f]) root e.1 := by
      intro e he
      rcases mem_mapUpdate m kf f e hnd he with ⟨h1, h2⟩ | ⟨v, h1, h2⟩ | ⟨h1, h2⟩
      · rw [hinv e h1, phiSumFor_append, if_neg (fun hc => h2 hc.symm)]
        simp
      · subst h2
        simp only [addFileToAcc]
        rw [hinv (kf, v) h1, phiSumFor_append]
        simp
      · subst h2
        simp only [addFileToAcc, emptyFolderAcc]
        rw [phiSumFor_append]
        have hzero : phiSumFor processed root kf = 0 := by
          have hfil : processed.filter (fun g => folderKeyOf g root == kf) = [] := by
            rw [List.filter_eq_nil_iff]
            intro g hg hbeq
            rw [beq_iff_eq] at hbeq
            exact h1 (hbeq ▸ hcov g hg)
          rw [phiSumFor, hfil]
          rfl
        simp [hzero]
    have := ih (mapUpdate m kf f) (processed ++ [f]) hnd2 hcov2 hinv2
    simpa [List.append_assoc] using this

/-- C6: each folder aggregate's `totalPhiCount` is the sum of `phi_count`
over exactly the files whose folder key is its `folderPath`, and hence the
aggregates' totals sum to the batch's total. -/
theorem c6_folder_partition (files : List ScannedFileRec) (rootPath : List Char) :
    (∀ a ∈ computeFolderAggregates files rootPath,
      a.totalPhiCount = phiSumFor files rootPath a.folderPath) ∧
    ((computeFolderAggregates files rootPath).map (fun a => a.totalPhiCount)).sum =
      (files.map (fun f => f.phiCount)).sum := by
  constructor
  · intro a ha
    simp only [computeFolderAggregates, folderFold, List.mem_map] at ha
    obtain ⟨e, he, rfl⟩ := ha
    have hinv := (folderFold_invariant rootPath files [] [] (by simp) (by simp)
      (by simp)).2
    simpa using hinv e he
  · have htot : ∀ (fl : List ScannedFileRec) (m : List (List Char × FolderAcc)),
        ((List.foldl (fun m f => mapUpdate m (folderKeyOf f rootPath) f) m fl).map
          (fun e => e.2.totalPhiCount)).sum =
        (m.map (fun e => e.2.totalPhiCount)).sum + (fl.map (fun f => f.phiCount)).sum := by
      intro fl
      induction fl with
      | nil => intro m; simp
      | cons f fl2 ih =>
        intro m
        simp only [List.foldl_cons, ih, sumPhi_mapUpdate, List.map_cons,
          List.sum_cons]
        omega
    simp only [computeFolderAggregates, folderFold, List.map_map]
    have := htot files []
    simpa [Function.comp] using this

/-- Witness for C6 on a concrete two-file batch sharing one folder. -/
theorem c6_folder_partition_witness :
    (∀ a ∈ computeFolderAggregates
        [{ fileName := ("a.txt".toList), filePath := some ("f1/a.txt".toList),
           riskScore := some 90, riskLevel := some .CRITICAL, phiCount := 5 },
         { fileName := ("b.txt".toList), filePath := some ("f1/b.txt".toList),
           riskScore := some 30, riskLevel := some .MEDIUM, phiCount := 1 }]
        ("root".toList),
      a.totalPhiCount = phiSumFor
        [{ fileName := ("a.txt".toList), filePath := some ("f1/a.txt".toList),
           riskScore := some 90, riskLevel := some .CRITICAL, phiCount := 5 },
         { fileName := ("b.txt".toList), filePath := some ("f1/b.txt".toList),
           riskScore := some 30, riskLevel := some .MEDIUM, phiCount := 1 }]
        ("root".toList) a.folderPath) ∧
    ((computeFolderAggregates
        [{ fileName := ("a.txt".toList), filePath := some ("f1/a.txt".toList),
           riskScore := some 90, riskLevel := some .CRITICAL, phiCount := 5 },
         { fileName := ("b.txt".toList), filePath := some ("f1/b.txt".toList),
           riskScore := some 30, riskLevel := some .MEDIUM, phiCount := 1 }]
        ("root".toList)).map (fun a => a.totalPhiCount)).sum =
      (([{ fileName := ("a.txt".toList), filePath := some ("f1/a.txt".toList),
           riskScore := some 90, riskLevel := some .CRITICAL, phiCount := 5 },
         { fileName := ("b.txt".toList), filePath := some ("f1/b.txt".toList),
           riskScore := some 30, riskLevel := some .MEDIUM, phiCount := 1 }] :
        List ScannedFileRec).map (fun f => f.phiCount)).sum :=
  c6_folder_partition _ ("root".toList)


-- ===========================================================================
-- Claim C7: overall score and level of a batch
-- ===========================================================================

/-- With alerting succeeding, the per-file loop of `createFolderScan` never
fails and accumulates the per-file results. -/
theorem foldlM_folderStep_ok (files : List FileInput) :
    ∀ (st : FolderLoopState),
      List.foldlM (folderStep true) st files =
        Except.ok
          { files := st.files ++ files.map (fun f =>
              mkScannedRec f (scanContentForPhi f.content f.fileName))
            totalPhiCount := st.totalPhiCount +
              (files.map (fun f => (scanContentForPhi f.content f.fileName).phiCount)).sum
            totalRiskScore := st.totalRiskScore +
              (files.map (fun f => (scanContentForPhi f.content f.fileName).riskScore)).sum
            maxRiskLevel := List.foldl
              (fun a b => if getSeverityScore b > getSeverityScore a then b else a)
              st.maxRiskLevel
              (files.map (fun f => (scanContentForPhi f.content f.fileName).riskLevel)) } := by
  induction files with
  | nil =>
    intro st
    simp only [List.foldlM_nil, List.map_nil, List.append_nil, List.sum_nil,
      Nat.add_zero, Int.add_zero, List.foldl_nil]
    rfl
  | cons f fl ih =>
    intro st
    have hstep : folderStep true st f = Except.ok
        { files := st.files ++ [mkScannedRec f (scanContentForPhi f.content f.fileName)]
          totalPhiCount := st.totalPhiCount + (scanContentForPhi f.content f.fileName).phiCount
          totalRiskScore := st.totalRiskScore + (scanContentForPhi f.content f.fileName).riskScore
          maxRiskLevel :=
            if getSeverityScore (scanContentForPhi f.content f.fileName).riskLevel >
                getSeverityScore st.maxRiskLevel then
              (scanContentForPhi f.content f.fileName).riskLevel
            else st.maxRiskLevel } := by
      rw [folderStep]
      simp
    rw [List.foldlM_cons, hstep]
    have hbind : (Except.ok
        { files := st.files ++ [mkScannedRec f (scanContentForPhi f.content f.fileName)]
          totalPhiCount := st.totalPhiCount + (scanContentForPhi f.content f.fileName).phiCount
          totalRiskScore := st.totalRiskScore + (scanContentForPhi f.content f.fileName).riskScore
          maxRiskLevel :=
            if getSeverityScore (scanContentForPhi f.content f.fileName).riskLevel >
                getSeverityScore st.maxRiskLevel then
              (scanContentForPhi f.content f.fileName).riskLevel
            else st.maxRiskLevel } : Except (List Char) FolderLoopState) >>=
          (fun s => List.foldlM (folderStep true) s fl) =
        List.foldlM (folderStep true)
          { files := st.files ++ [mkScannedRec f (scanContentForPhi f.content f.fileName)]
            totalPhiCount := st.totalPhiCount + (scanContentForPhi f.content f.fileName).phiCount
            totalRiskScore := st.totalRiskScore + (scanContentForPhi f.content f.fileName).riskScore
            maxRiskLevel :=
              if getSeverityScore (scanContentForPhi f.content f.fileName).riskLevel >
                  getSeverityScore st.maxRiskLevel then
                (scanContentForPhi f.content f.fileName).riskLevel
              else st.maxRiskLevel } fl := rfl
    rw [hbind, ih]
    simp only [Except.ok.injEq, FolderLoopState.mk.injEq]
    refine ⟨by simp, by simp [List.sum_cons]; omega, by simp [List.sum_cons]; omega, by simp⟩

/-- The running-max fold: the result is the initial value or a list element,
dominates the initial value, and dominates every element. -/
theorem foldl_maxSev_spec (l : List Severity) :
    ∀ (init : Severity),
      (List.foldl (fun a b => if getSeverityScore b > getSeverityScore a then b else a)
          init l = init ∨
        List.foldl (fun a b => if getSeverityScore b > getSeverityScore a then b else a)
          init l ∈ l) ∧
      getSeverityScore init ≤ getSeverityScore
        (List.foldl (fun a b => if getSeverityScore b > getSeverityScore a then b else a)
          init l) ∧
      ∀ x ∈ l, getSeverityScore x ≤ getSeverityScore
        (List.foldl (fun a b => if getSeverityScore b > getSeverityScore a then b else a)
          init l) := by
  induction l with
  | nil => intro init; simp
  | cons y ys ih =>
    intro init
    simp only [List.foldl_cons]
    obtain ⟨hmem, hge, hall⟩ :=
      ih (if getSeverityScore y > getSeverityScore init then y else init)
    refine ⟨?_, ?_, ?_⟩
    · rcases hmem with h | h
      · rw [h]
        split
        · exact Or.inr (List.mem_cons_self _ _)
        · exact Or.inl rfl
      · exact Or.inr (List.mem_cons_of_mem _ h)
    · refine le_trans ?_ hge
      split
      · omega
      · exact le_refl _
    · intro x hx
      rcases List.mem_cons.mp hx with rfl | hx
      · refine le_trans ?_ hge
        split
        · exact le_refl _
        · omega
      · exact hall x hx

/-- A severity whose score is at most 25 is LOW. -/
theorem severity_of_score_le (sv : Severity) (h : getSeverityScore sv ≤ 25) :
    sv = .LOW := by
  cases sv <;> revert h <;> decide

/-- Starting from LOW over a nonempty list, the fold yields the
maximum-severity element of the list. -/
theorem foldl_maxSev_max (l : List Severity) (hl : l ≠ []) :
    (List.foldl (fun a b => if getSeverityScore b > getSeverityScore a then b else a)
        .LOW l ∈ l) ∧
    ∀ x ∈ l, getSeverityScore x ≤ getSeverityScore
      (List.foldl (fun a b => if getSeverityScore b > getSeverityScore a then b else a)
        .LOW l) := by
  obtain ⟨hmem, -, hall⟩ := foldl_maxSev_spec l .LOW
  refine ⟨?_, hall⟩
  rcases hmem with h | h
  · rw [h]
    cases l with
    | nil => exact absurd rfl hl
    | cons y ys =>
      have hy := hall y (List.mem_cons_self y ys)
      rw [h] at hy
      have hylow : y = .LOW := severity_of_score_le y hy
      rw [← hylow]
      exact List.mem_cons_self y ys
  · exact h

/-- C7: for a nonempty batch (with collaborators succeeding), the scan's
overall risk score is the rounded mean of the per-file risk scores and its
overall risk level is the maximum-severity per-file risk level; and a
single-file scan's overall risk score is that file's risk score. -/
theorem c7_overall_metrics (files : List FileInput) (rootPath : List Char)
    (hne : files ≠ []) (s : FolderScanSummary)
    (hs : createFolderScanModel files rootPath true = .ok s) :
    (s.overallRiskScore = jsRound
      ((((files.map (fun f => (scanContentForPhi f.content f.fileName).riskScore)).sum : ℤ) : ℚ) /
        (files.length : ℚ))) ∧
    s.overallRiskLevel ∈
      files.map (fun f => (scanContentForPhi f.content f.fileName).riskLevel) ∧
    (∀ lv ∈ files.map (fun f => (scanContentForPhi f.content f.fileName).riskLevel),
      getSeverityScore lv ≤ getSeverityScore s.overallRiskLevel) ∧
    (∀ (content : Option (List Char)) (fileName : List Char) (alertOk : Bool)
        (fsum : FileScanSummary),
      createFileScanModel content fileName alertOk = .ok fsum →
      fsum.overallRiskScore = (scanContentForPhi content fileName).riskScore) := by
  rw [createFolderScanModel, foldlM_folderStep_ok files initFolderState] at hs
  simp only [initFolderState, Except.map, Except.ok.injEq] at hs
  subst hs
  have hlen : (files.map (fun f =>
      mkScannedRec f (scanContentForPhi f.content f.fileName))).length = files.length :=
    List.length_map _ _
  have hlenpos : 0 < files.length := List.length_pos.mpr hne
  refine ⟨?_, ?_, ?_, ?_⟩
  · simp only [List.nil_append, hlen]
    rw [if_pos (by omega)]
    simp
  · simp only []
    have hmapne : files.map (fun f => (scanContentForPhi f.content f.fileName).riskLevel) ≠ [] := by
      simp [hne]
    exact (foldl_maxSev_max _ hmapne).1
  · intro lv hlv
    have hmapne : files.map (fun f => (scanContentForPhi f.content f.fileName).riskLevel) ≠ [] := by
      simp [hne]
    exact (foldl_maxSev_max _ hmapne).2 lv hlv
  · intro content fileName alertOk fsum hfs
    rw [createFileScanModel] at hfs
    split at hfs
    · exact absurd hfs (by simp)
    · simp only [Except.ok.injEq] at hfs
      rw [← hfs]


/-- Witness for C7 on a one-file batch. -/
theorem c7_overall_metrics_witness :
    (c7Files ≠ []) ∧
    ((c7Summary.overallRiskScore = jsRound
      ((((c7Files.map (fun f => (scanContentForPhi f.content f.fileName).riskScore)).sum : ℤ) : ℚ) /
        (c7Files.length : ℚ))) ∧
    c7Summary.overallRiskLevel ∈
      c7Files.map (fun f => (scanContentForPhi f.content f.fileName).riskLevel) ∧
    (∀ lv ∈ c7Files.map (fun f => (scanContentForPhi f.content f.fileName).riskLevel),
      getSeverityScore lv ≤ getSeverityScore c7Summary.overallRiskLevel) ∧
    (∀ (content : Option (List Char)) (fileName : List Char) (alertOk : Bool)
        (fsum : FileScanSummary),
      createFileScanModel content fileName alertOk = .ok fsum →
      fsum.overallRiskScore = (scanContentForPhi content fileName).riskScore)) :=
  ⟨by decide,
    c7_overall_metrics c7Files ("root".toList) (by decide) c7Summary
      (by with_unfolding_all decide)⟩

end MedGuard
